import Mathlib

/-!
# FinApp — verification of the balance/limit bookkeeping and aggregation logic

Shallow embedding of the core data model and handlers of
`app_financas_streamlit.py` and `helpers.py`.

Modelling conventions:
* Monetary values (`valor`, `limite`, `saldo_inicial`) are exact amounts in
  cents (`Int`).  The source stores Python floats; every claim-relevant
  operation is addition, subtraction and comparison of decimal amounts, which
  this exact model captures.
* The four session-state tables (`st.session_state.tx / cards / accounts /
  cats`) become four lists in an `AppState` record.
* Optional reference columns (pandas `NaN` for an absent `categoria_id`,
  `conta_id`, `cartao_id`, ...) become `Option String`.
* Transaction kinds keep the source's Portuguese strings: `"Receita"`
  (Income) and `"Despesa"` (Expense).
* Remote Supabase calls that can fail (`insert_row`, `delete_row`, the
  reference-clearing `update`) are modelled by `Bool` outcome parameters;
  the handlers' session-state updates are reproduced exactly as written.
-/

/-- A row of the `transactions` table / `st.session_state.tx`
(columns `TX_COLS`, line 69 of the source). -/
structure Transaction where
  id : String
  data : String
  tipo : String
  categoria_id : Option String
  categoria_nome : Option String
  descricao : String
  valor : Int
  conta_id : Option String
  conta_nome : Option String
  cartao_id : Option String
  cartao_nome : Option String
deriving DecidableEq, Repr

/-- A row of the `cards` table (columns `CARD_COLS`, line 70). -/
structure Card where
  id : String
  nome : String
  limite : Int
  vencimento : Nat
deriving DecidableEq, Repr

/-- A row of the `accounts` table (columns `ACCOUNT_COLS`, line 71). -/
structure Account where
  id : String
  nome : String
  saldo_inicial : Int
deriving DecidableEq, Repr

/-- A row of the `categories` table (columns `CAT_COLS`, line 72). -/
structure Category where
  id : String
  nome : String
  tipo : String
  default_conta_id : Option String
  default_cartao_id : Option String
deriving DecidableEq, Repr

/-- The four session-state tables (lines 99-106 of the source). -/
structure AppState where
  tx : List Transaction
  cards : List Card
  accounts : List Account
  cats : List Category
deriving DecidableEq, Repr

/-! ## Dashboard aggregations (source lines 265-318) -/

/-- Dashboard: `receitas = df[df["tipo"] == "Receita"]["valor"].sum()`
(line 274). -/
def receitas (df : List Transaction) : Int :=
  ((df.filter (fun t => t.tipo == "Receita")).map (fun t => t.valor)).sum

/-- Dashboard: `despesas = df[df["tipo"] == "Despesa"]["valor"].sum()`
(line 275). -/
def despesas (df : List Transaction) : Int :=
  ((df.filter (fun t => t.tipo == "Despesa")).map (fun t => t.valor)).sum

/-- Dashboard: `saldo = receitas - despesas` (line 276). -/
def saldo (df : List Transaction) : Int :=
  receitas df - despesas df

/-- Dashboard per-account movement:
`movimento = df[df["conta_id"] == aid]["valor"].sum()` (line 291).
Note: the source sums the raw `valor` of every transaction referencing the
account, with no sign inversion for `"Despesa"` rows. -/
def movimento (df : List Transaction) (aid : String) : Int :=
  ((df.filter (fun t => t.conta_id == some aid)).map (fun t => t.valor)).sum

/-- Dashboard per-account rollup (lines 288-293): for each account the pair
`(nome, saldo_inicial + movimento)`. -/
def account_saldos (accounts : List Account) (df : List Transaction) :
    List (String × Int) :=
  accounts.map (fun a => (a.nome, a.saldo_inicial + movimento df a.id))

/-- Dashboard per-card usage:
`usado = df[df["cartao_id"] == cid]["valor"].sum()` (line 309).
Note: the source sums every transaction referencing the card, whatever its
`tipo` ("Receita" rows included). -/
def usado (df : List Transaction) (cid : String) : Int :=
  ((df.filter (fun t => t.cartao_id == some cid)).map (fun t => t.valor)).sum

/-- One row of the dashboard card table (line 311). -/
structure CardSummary where
  cartao : String
  limite : Int
  usado_val : Int
  restante : Int
deriving DecidableEq, Repr

/-- Dashboard per-card rollup (lines 306-311): for each card
`{cartao, limite, usado, restante = limite - usado}`. -/
def card_summaries (cards : List Card) (df : List Transaction) :
    List CardSummary :=
  cards.map (fun c => ⟨c.nome, c.limite, usado df c.id, c.limite - usado df c.id⟩)

/-- The group keys of `df.groupby("categoria_nome")` (line 298): the distinct
`categoria_nome` values that are present (`some _`).  pandas silently drops
rows whose group key is `NaN`, i.e. transactions without a category. -/
def catKeys (df : List Transaction) : List String :=
  (df.filterMap (fun t => t.categoria_nome)).dedup

/-- The group total for one category name under
`df.groupby("categoria_nome")["valor"].sum()` (line 298): raw `valor` summed,
no sign inversion. -/
def catTotal (df : List Transaction) (name : String) : Int :=
  ((df.filter (fun t => t.categoria_nome == some name)).map (fun t => t.valor)).sum

/-- Dashboard per-category rollup
`cat_sum = df.groupby("categoria_nome")["valor"].sum()` (line 298), as the
list of `(group key, group total)` pairs.  The trailing
`.sort_values(ascending=False)` only reorders rows for display and is not
modelled. -/
def cat_sum (df : List Transaction) : List (String × Int) :=
  (catKeys df).map (fun n => (n, catTotal df n))

/-! ## Spec-side definitions (verbatim from the specification's words, for
refinement comparison with the code-side definitions above) -/

/-- Spec §4.4 / glossary: "Signed amount: `+amount` for Income, `-amount`
for Expense" (Income = "Receita", Expense = "Despesa"). -/
def signed_amount_spec (t : Transaction) : Int :=
  if t.tipo = "Receita" then t.valor else -t.valor

/-- Spec §4.4: "Period totals: `sum(amount where kind=Income)`". -/
def income_total_spec (df : List Transaction) : Int :=
  (df.map (fun t => if t.tipo = "Receita" then t.valor else 0)).sum

/-- Spec §4.4: "Period totals: `sum(amount where kind=Expense)`". -/
def expense_total_spec (df : List Transaction) : Int :=
  (df.map (fun t => if t.tipo = "Despesa" then t.valor else 0)).sum

/-- Spec §8: "`Σ signed_amount(t) for t in transactions where
t.account_id == A.id`". -/
def signedMovimento_spec (df : List Transaction) (aid : String) : Int :=
  ((df.filter (fun t => t.conta_id == some aid)).map signed_amount_spec).sum

/-- Spec §8: "`used(C) == Σ amount(t) for t in transactions where
t.card_id == C.id and t.kind == Expense`". -/
def used_expense_spec (df : List Transaction) (cid : String) : Int :=
  ((df.filter (fun t => t.cartao_id == some cid && t.tipo == "Despesa")).map
    (fun t => t.valor)).sum

/-- The Income amounts recorded against a card: the difference between the
source's `usado` and the spec's Expense-only `used`. -/
def income_on_card (df : List Transaction) (cid : String) : Int :=
  ((df.filter (fun t => t.cartao_id == some cid && t.tipo == "Receita")).map
    (fun t => t.valor)).sum

/-! ## Delete handlers (source lines 256-260, 365-384, 426-444, 530-548) -/

/-- "Excluir lançamento" (lines 256-260): on success the session table
becomes `st.session_state.tx[st.session_state.tx["id"] != tx_id]`; the other
three tables are not touched. -/
def excluirLancamento (s : AppState) (tx_id : String) : AppState :=
  { s with tx := s.tx.filter (fun t => t.id != tx_id) }

/-- Reference clearing applied to one transaction row when a card is deleted
(lines 372 and 377): `cartao_id`/`cartao_nome` are set to `NULL` on every row
whose `cartao_id` equals the deleted id. -/
def clearCartaoRef (cid : String) (t : Transaction) : Transaction :=
  if t.cartao_id == some cid then { t with cartao_id := none, cartao_nome := none } else t

/-- "Excluir cartão" (lines 365-384), success path: in the linked branch the
handler first clears the `cartao_id`/`cartao_nome` references on every
transaction pointing at the card and then removes the card row; in the
unlinked branch no transaction matches, so the same map is the identity. -/
def excluirCartao (s : AppState) (cid : String) : AppState :=
  { s with
      tx := s.tx.map (clearCartaoRef cid),
      cards := s.cards.filter (fun c => c.id != cid) }

/-- Reference clearing for an account deletion (lines 432 and 437). -/
def clearContaRef (aid : String) (t : Transaction) : Transaction :=
  if t.conta_id == some aid then { t with conta_id := none, conta_nome := none } else t

/-- "Excluir conta" (lines 426-444), success path: clear the
`conta_id`/`conta_nome` references, then remove the account row. -/
def excluirConta (s : AppState) (aid : String) : AppState :=
  { s with
      tx := s.tx.map (clearContaRef aid),
      accounts := s.accounts.filter (fun a => a.id != aid) }

/-- Reference clearing for a category deletion (lines 536 and 541). -/
def clearCategoriaRef (cid : String) (t : Transaction) : Transaction :=
  if t.categoria_id == some cid then { t with categoria_id := none, categoria_nome := none } else t

/-- "Excluir categoria" (lines 530-548), success path: clear the
`categoria_id`/`categoria_nome` references, then remove the category row. -/
def excluirCategoria (s : AppState) (cid : String) : AppState :=
  { s with
      tx := s.tx.map (clearCategoriaRef cid),
      cats := s.cats.filter (fun c => c.id != cid) }

/-! ## "Registrar lançamento" submit handler (source lines 145-220) -/

/-- Python truthiness of an optional string field (`if nova_cat:`,
`if categoria_id:`, ...): present and non-empty. -/
def truthyStr : Option String → Bool
  | none => false
  | some sv => sv != ""

/-- Python `x or "Ambas"` on an optional string (line 178): falls back when
the value is missing or empty. -/
def pyOrAmbas : Option String → String
  | none => "Ambas"
  | some sv => if sv = "" then "Ambas" else sv

/-- The values the "Novo lançamento" form hands to the submit branch
(lines 148-171).  `nova_cat`/`nova_cat_tipo` are `none` unless
"-- Nova categoria --" was chosen. -/
structure FormInput where
  data : String
  tipo : String
  cat_choice : String
  nova_cat : Option String
  nova_cat_tipo : Option String
  descricao : String
  valor : Int
  acc_choice : String
  card_choice : String
deriving DecidableEq, Repr

/-- `{r["nome"]: r["id"] for r in rows}.get(choice)` — a Python dict
comprehension keyed by `nome` lets the last duplicate win, hence the lookup
runs over the reversed list. -/
def lookupIdByNomeCat (cats : List Category) (choice : String) : Option String :=
  (cats.reverse.find? (fun c => c.nome == choice)).map (fun c => c.id)

/-- `acc_map.get(acc_choice)` for accounts (line 165/192). -/
def lookupIdByNomeAcc (accounts : List Account) (choice : String) : Option String :=
  (accounts.reverse.find? (fun a => a.nome == choice)).map (fun a => a.id)

/-- `card_map.get(card_choice)` for cards (line 168/194). -/
def lookupIdByNomeCard (cards : List Card) (choice : String) : Option String :=
  (cards.reverse.find? (fun c => c.nome == choice)).map (fun c => c.id)

/-- The `novo` payload dict (lines 198-213): `id/data/tipo/descricao/valor`
always present; each reference pair is included only when its id is truthy. -/
def buildNovo (inp : FormInput) (tx_id : String)
    (categoria_id : Option String) (categoria_nome : Option String)
    (acc_id : Option String) (acc_name : Option String)
    (card_id : Option String) (card_name : Option String) : Transaction :=
  { id := tx_id
    data := inp.data
    tipo := inp.tipo
    categoria_id := if truthyStr categoria_id then categoria_id else none
    categoria_nome := if truthyStr categoria_id then categoria_nome else none
    descricao := inp.descricao
    valor := inp.valor
    conta_id := if truthyStr acc_id then acc_id else none
    conta_nome := if truthyStr acc_id then acc_name else none
    cartao_id := if truthyStr card_id then card_id else none
    cartao_nome := if truthyStr card_id then card_name else none }

/-- The submit branch of "Registrar lançamento" (lines 173-220), as a
function on the session state.  `cid` and `tx_id` stand for the generated
`uuid4()` values; `catOk` is the outcome of the `insert_row("categories", …)`
call and `txOk` the outcome of `insert_row("transactions", …)`.

* If a new category is requested and its insert fails, `st.stop()` aborts the
  handler: the state is returned unchanged.
* If a new category is requested and its insert succeeds, the category is
  appended to `cats` before the transaction insert is attempted.
* The transaction row is appended only when its own insert succeeds.
* There is no credit-limit check anywhere on this path. -/
def registrarLancamento (s : AppState) (inp : FormInput)
    (cid tx_id : String) (catOk txOk : Bool) : AppState :=
  let acc_id := lookupIdByNomeAcc s.accounts inp.acc_choice
  let acc_name := if inp.acc_choice != "-- Nenhuma --" then some inp.acc_choice else none
  let card_id := lookupIdByNomeCard s.cards inp.card_choice
  let card_name := if inp.card_choice != "-- Nenhum --" then some inp.card_choice else none
  if truthyStr inp.nova_cat then
    if catOk then
      let newCat : Category :=
        { id := cid, nome := inp.nova_cat.getD "", tipo := pyOrAmbas inp.nova_cat_tipo
          default_conta_id := none, default_cartao_id := none }
      let s1 : AppState := { s with cats := s.cats ++ [newCat] }
      let novo := buildNovo inp tx_id (some cid) inp.nova_cat acc_id acc_name card_id card_name
      if txOk then { s1 with tx := s1.tx ++ [novo] } else s1
    else
      s
  else
    let categoria_id := lookupIdByNomeCat s.cats inp.cat_choice
    let categoria_nome := if inp.cat_choice != "-- Nenhuma --" then some inp.cat_choice else none
    let novo := buildNovo inp tx_id categoria_id categoria_nome acc_id acc_name card_id card_name
    if txOk then { s with tx := s.tx ++ [novo] } else s

/-! ## helpers.py — CSV loaders (lines 7-14 and 21-28) -/

/-- A pandas DataFrame, reduced to what the loader claims need: a column
list and the rows. -/
structure DataFrame where
  cols : List String
  rows : List (List String)
deriving DecidableEq, Repr

/-- The three file-system situations `load_data`/`load_cards` can meet:
the CSV file is absent, present but unreadable (`pd.read_csv` raises), or
present and parsed to a DataFrame. -/
inductive FileState where
  | absent
  | corrupt
  | readable (df : DataFrame)
deriving DecidableEq, Repr

/-- `helpers.load_data` (lines 7-14): if the file exists, try `read_csv`,
returning the empty schema DataFrame on any exception; if it does not exist,
return the empty schema DataFrame.  Every branch returns; the bare `except:`
swallows every parse error. -/
def load_data : FileState → DataFrame
  | .absent => ⟨["data", "tipo", "categoria", "descricao", "valor"], []⟩
  | .corrupt => ⟨["data", "tipo", "categoria", "descricao", "valor"], []⟩
  | .readable df => df

/-- `helpers.load_cards` (lines 21-28): same shape as `load_data` with the
cards schema. -/
def load_cards : FileState → DataFrame
  | .absent => ⟨["nome", "limite", "vencimento"], []⟩
  | .corrupt => ⟨["nome", "limite", "vencimento"], []⟩
  | .readable df => df

/-! ## The currency formatter `fmt` (source lines 118-124)

`fmt` computes `f"R$ {v:,.2f}"` and then swaps the separators with
`.replace(",", "X").replace(".", ",").replace("X", ".")`.  The model works on
an exact amount in cents (`Int`); Python's `{:,.2f}` on such a value prints
the sign, the integer digits grouped in threes by `,`, then `.` and exactly
two fractional digits.  A single-character `str.replace` is a character-wise
substitution, modelled by `List.map`. -/

/-- Decimal digit extraction, least significant first, with an explicit
fuel argument so that the recursion is structural (and hence reduces in the
kernel); `fuel = n + 1` always suffices. -/
def natDigitsRevAux : Nat → Nat → List Char
  | 0, _ => []
  | fuel + 1, n =>
    if n < 10 then [Char.ofNat (48 + n)]
    else Char.ofNat (48 + n % 10) :: natDigitsRevAux fuel (n / 10)

/-- Decimal digits of `n`, least significant first, as characters
(`"0"` for `0`), exactly the digit string Python prints for the integer
part. -/
def natDigitsRev (n : Nat) : List Char :=
  natDigitsRevAux (n + 1) n

/-- Python's `{:,}` thousands grouping on a reversed digit list: a `','` is
inserted after every third digit, never trailing.  `k` counts the digits
already placed in the current group (0, 1 or 2). -/
def insertSepsRev : List Char → Nat → List Char
  | [], _ => []
  | d :: ds, k =>
    if ds.isEmpty then [d]
    else if k = 2 then d :: ',' :: insertSepsRev ds 0
    else d :: insertSepsRev ds (k + 1)

/-- The two fractional digits of `{:.2f}` for a cent remainder `m < 100`. -/
def pad2 (m : Nat) : List Char :=
  [Char.ofNat (48 + m / 10), Char.ofNat (48 + m % 10)]

/-- `f"{v:,.2f}"` for the exact amount `n` cents: optional `'-'`, the
comma-grouped integer part, `'.'`, two fractional digits. -/
def pyFormatChars (n : Int) : List Char :=
  (if n < 0 then ['-'] else []) ++
    (insertSepsRev (natDigitsRev (n.natAbs / 100)) 0).reverse ++
    ['.'] ++ pad2 (n.natAbs % 100)

/-- Single-character `str.replace(a, b)` as a character map. -/
def replaceChar (a b : Char) (s : List Char) : List Char :=
  s.map (fun c => if c = a then b else c)

/-- `fmt` (lines 118-124) on an exact cent amount:
`f"R$ {v:,.2f}".replace(",", "X").replace(".", ",").replace("X", ".")`. -/
def fmt (n : Int) : String :=
  ⟨replaceChar 'X' '.' (replaceChar '.' ',' (replaceChar ',' 'X'
    ("R$ ".data ++ pyFormatChars n)))⟩

/-! ## Concrete fixtures used by the counterexample / evaluation theorems -/

/-- An account with initial balance `0,00`. -/
def exAccount : Account := ⟨"a1", "Conta A", 0⟩

/-- An Expense of `100,00` linked to account `a1`. -/
def exDespesaAcc : Transaction :=
  ⟨"t1", "2026-01-01", "Despesa", none, none, "mercado", 10000,
    some "a1", some "Conta A", none, none⟩

/-- A card with limit `100,00`. -/
def exCard : Card := ⟨"c1", "Nubank", 10000, 10⟩

/-- An Expense of `80,00` on card `c1`. -/
def exDespesaCard : Transaction :=
  ⟨"t2", "2026-01-02", "Despesa", none, none, "compra", 8000,
    none, none, some "c1", some "Nubank"⟩

/-- An Income of `50,00` on card `c1` (e.g. a refund recorded on the card). -/
def exReceitaCard : Transaction :=
  ⟨"t3", "2026-01-03", "Receita", none, none, "estorno", 5000,
    none, none, some "c1", some "Nubank"⟩

/-- An Expense of `100,00` in category `"Food"`. -/
def exFoodTx : Transaction :=
  ⟨"t4", "2026-01-04", "Despesa", some "k1", some "Food", "almoço", 10000,
    none, none, none, none⟩

/-- An Expense of `50,00` with no category (`categoria_nome` is `NaN`). -/
def exNoCatTx : Transaction :=
  ⟨"t5", "2026-01-05", "Despesa", none, none, "avulso", 5000,
    none, none, none, none⟩

/-- State for the credit-limit scenario: one card at `80,00` of `100,00`. -/
def exLimitState : AppState := ⟨[exDespesaCard], [exCard], [], []⟩

/-- Form input: an Expense of `50,00` on card "Nubank", no account, an
existing-category choice that matches no category. -/
def exLimitInput : FormInput :=
  ⟨"2026-02-01", "Despesa", "Food", none, none, "compra grande", 5000,
    "-- Nenhuma --", "Nubank"⟩

/-- State for the partial-failure scenario: all four tables empty. -/
def exEmptyState : AppState := ⟨[], [], [], []⟩

/-- Form input requesting a brand-new category `"Mercado"`. -/
def exNewCatInput : FormInput :=
  ⟨"2026-02-02", "Despesa", "-- Nova categoria --", some "Mercado",
    some "Despesa", "feira", 2500, "-- Nenhuma --", "-- Nenhum --"⟩

/-- State exercising the cascade deletes: one transaction referencing the
card, the account and the category, plus one unlinked transaction. -/
def exCascadeState : AppState :=
  ⟨[⟨"t6", "2026-01-06", "Despesa", some "k1", some "Food", "jantar", 7000,
      some "a1", some "Conta A", some "c1", some "Nubank"⟩,
    exNoCatTx],
   [exCard], [exAccount], [⟨"k1", "Food", "Despesa", none, none⟩]⟩

/-! ## Helper lemmas -/

/-- The filtered Income sum is the sum of the Income-indicator map. -/
theorem receitas_eq_income_total (df : List Transaction) :
    receitas df = income_total_spec df := by
  induction df with
  | nil => rfl
  | cons t ts ih =>
    simp only [receitas, income_total_spec, List.filter_cons, List.map_cons,
      List.sum_cons] at *
    by_cases h : t.tipo = "Receita"
    · simp [h, ih]
    · simp [beq_iff_eq, h, ih]

/-- The filtered Expense sum is the sum of the Expense-indicator map. -/
theorem despesas_eq_expense_total (df : List Transaction) :
    despesas df = expense_total_spec df := by
  induction df with
  | nil => rfl
  | cons t ts ih =>
    simp only [despesas, expense_total_spec, List.filter_cons, List.map_cons,
      List.sum_cons] at *
    by_cases h : t.tipo = "Despesa"
    · simp [h, ih]
    · simp [beq_iff_eq, h, ih]

/-! ## Claim theorems -/

/-- C6 — confirmed.  The dashboard period totals: `receitas` is the sum of
amounts of `"Receita"` transactions, `despesas` the sum of amounts of
`"Despesa"` transactions, `saldo = receitas - despesas`, and all three are
zero on the empty transaction set. -/
theorem c6_dashboard_period_totals (df : List Transaction) :
    receitas df = income_total_spec df ∧
    despesas df = expense_total_spec df ∧
    saldo df = income_total_spec df - expense_total_spec df ∧
    receitas [] = 0 ∧ despesas [] = 0 ∧ saldo [] = 0 :=
  ⟨receitas_eq_income_total df, despesas_eq_expense_total df,
    by rw [saldo, receitas_eq_income_total, despesas_eq_expense_total],
    rfl, rfl, rfl⟩

/-- C1 — code bug, evaluated at the failing input.  For account `a1` with
initial balance `0` and a single Expense of `100,00` referencing it, the
dashboard rollup `account_saldos` reports `+100,00` (it sums raw `valor`,
line 291), while the claimed signed rollup
`saldo_inicial + Σ signed_amount` gives `-100,00`. -/
theorem c1_account_saldos_ignores_sign :
    account_saldos [exAccount] [exDespesaAcc] = [("Conta A", 10000)] ∧
    exAccount.saldo_inicial + signedMovimento_spec [exDespesaAcc] "a1" = -10000 := by
  constructor
  · rfl
  · rfl

/-- `usado` splits into the Expense part and the Income part when every
transaction kind is `"Receita"` or `"Despesa"`. -/
theorem usado_decompose (df : List Transaction) (cid : String)
    (hbin : ∀ t ∈ df, t.tipo = "Receita" ∨ t.tipo = "Despesa") :
    usado df cid = used_expense_spec df cid + income_on_card df cid := by
  induction df with
  | nil => rfl
  | cons t ts ih =>
    have ht := hbin t (List.mem_cons_self t ts)
    have hts : ∀ u ∈ ts, u.tipo = "Receita" ∨ u.tipo = "Despesa" :=
      fun u hu => hbin u (List.mem_cons_of_mem t hu)
    simp only [usado, used_expense_spec, income_on_card, List.filter_cons] at *
    rcases ht with h | h <;> by_cases hc : t.cartao_id = some cid <;>
      simp [h, hc, ih hts] <;> omega

/-- C4 — corrected.  The dashboard card rollup: each summary row carries
`restante = limite - usado`, every card appears with `usado` equal to the sum
of the amounts of ALL transactions referencing it — which, when transaction
kinds are binary, is the claimed Expense-only sum PLUS the Income sum, not
the Expense-only sum alone. -/
theorem c4_card_summaries_amended (cards : List Card) (df : List Transaction)
    (hbin : ∀ t ∈ df, t.tipo = "Receita" ∨ t.tipo = "Despesa") :
    (∀ e ∈ card_summaries cards df, e.restante = e.limite - e.usado_val) ∧
    (∀ c ∈ cards,
      (⟨c.nome, c.limite, usado df c.id, c.limite - usado df c.id⟩ : CardSummary)
        ∈ card_summaries cards df) ∧
    (∀ c ∈ cards, usado df c.id = used_expense_spec df c.id + income_on_card df c.id) := by
  refine ⟨?_, ?_, ?_⟩
  · intro e he
    rcases List.mem_map.mp he with ⟨c, _, rfl⟩
    rfl
  · intro c hc
    exact List.mem_map_of_mem _ hc
  · intro c _
    exact usado_decompose df c.id hbin

/-- C4 witness: the amended theorem applied to the card/refund fixture. -/
theorem c4_witness :
    (∀ t ∈ [exDespesaCard, exReceitaCard], t.tipo = "Receita" ∨ t.tipo = "Despesa") ∧
    (∀ c ∈ [exCard], usado [exDespesaCard, exReceitaCard] c.id =
      used_expense_spec [exDespesaCard, exReceitaCard] c.id +
        income_on_card [exDespesaCard, exReceitaCard] c.id) :=
  ⟨by decide,
    (c4_card_summaries_amended [exCard] [exDespesaCard, exReceitaCard] (by decide)).2.2⟩

/-- C4 counterexample: a card holding an `80,00` Expense and a `50,00`
Income.  The source reports `usado = 130,00` (and `restante = -30,00`),
while the claimed Expense-only figure is `80,00`. -/
theorem c4_counterexample :
    card_summaries [exCard] [exDespesaCard, exReceitaCard] =
      [⟨"Nubank", 10000, 13000, -3000⟩] ∧
    used_expense_spec [exDespesaCard, exReceitaCard] "c1" = 8000 := by
  exact ⟨rfl, rfl⟩

/-- Unfolding a category group total over a cons cell. -/
theorem catTotal_cons (t : Transaction) (ts : List Transaction) (n : String) :
    catTotal (t :: ts) n =
      (if t.categoria_nome = some n then t.valor else 0) + catTotal ts n := by
  simp only [catTotal, List.filter_cons]
  by_cases h : t.categoria_nome = some n
  · simp [h]
  · simp [beq_iff_eq, h]

/-- A name that no transaction carries has group total zero. -/
theorem catTotal_eq_zero (ts : List Transaction) (k : String)
    (h : ∀ t ∈ ts, t.categoria_nome ≠ some k) : catTotal ts k = 0 := by
  simp only [catTotal]
  rw [List.filter_eq_nil_iff.mpr (by simpa [beq_iff_eq] using h)]
  rfl

/-- Summing a one-point delta over a duplicate-free key list. -/
theorem sum_map_delta (ks : List String) (k0 : String) (v : Int)
    (hnd : ks.Nodup) :
    (ks.map (fun n => if k0 = n then v else 0)).sum = if k0 ∈ ks then v else 0 := by
  induction ks with
  | nil => simp
  | cons k ks ih =>
    rcases List.nodup_cons.mp hnd with ⟨hk, hnd'⟩
    simp only [List.map_cons, List.sum_cons, List.mem_cons]
    by_cases h : k0 = k
    · subst h
      simp [ih hnd', hk]
    · simp [h, ih hnd']

/-- The keys of the category grouping are duplicate-free. -/
theorem catKeys_nodup (df : List Transaction) : (catKeys df).Nodup :=
  List.nodup_dedup _

/-- Membership in the category grouping keys. -/
theorem mem_catKeys (df : List Transaction) (n : String) :
    n ∈ catKeys df ↔ ∃ t ∈ df, t.categoria_nome = some n := by
  simp [catKeys, List.mem_dedup, List.mem_filterMap]

/-- Partition: the group totals of `cat_sum` add up to the total amount of
the transactions that do carry a category; uncategorised rows are not
counted anywhere. -/
theorem cat_sum_partition (df : List Transaction) :
    ((catKeys df).map (fun n => catTotal df n)).sum =
      ((df.filter (fun t => t.categoria_nome.isSome)).map (fun t => t.valor)).sum := by
  induction df with
  | nil => rfl
  | cons t ts ih =>
    have hmap : ∀ ks : List String,
        (ks.map (fun n => catTotal (t :: ts) n)).sum =
          (ks.map (fun n => if t.categoria_nome = some n then t.valor else 0)).sum +
            (ks.map (fun n => catTotal ts n)).sum := by
      intro ks
      rw [← List.sum_map_add]
      exact congrArg List.sum (List.map_congr_left (fun n _ => catTotal_cons t ts n))
    cases h : t.categoria_nome with
    | none =>
      have hkeys : catKeys (t :: ts) = catKeys ts := by
        simp [catKeys, List.filterMap_cons, h]
      have hdelta : (ize : List String) →
          ((ize).map (fun n => if t.categoria_nome = some n then t.valor else 0)).sum = 0 := by
        intro ize
        have : ∀ n ∈ ize, (if t.categoria_nome = some n then t.valor else 0) = 0 := by
          intro n _
          simp [h]
        rw [List.map_congr_left this]
        simp
      rw [hkeys, hmap, hdelta]
      simpa [List.filter_cons, h] using ih
    | some k0 =>
      by_cases hk : k0 ∈ ts.filterMap (fun u => u.categoria_nome)
      · have hkeys : catKeys (t :: ts) = catKeys ts := by
          simp only [catKeys, List.filterMap_cons, h]
          exact List.dedup_cons_of_mem hk
        have hk' : k0 ∈ catKeys ts := List.mem_dedup.mpr hk
        rw [hkeys, hmap]
        have hdelta :
            ((catKeys ts).map (fun n => if t.categoria_nome = some n then t.valor else 0)).sum
              = t.valor := by
          have heq : ∀ n ∈ catKeys ts,
              (if t.categoria_nome = some n then t.valor else 0) =
                (if k0 = n then t.valor else 0) := by
            intro n _
            simp [h]
          rw [List.map_congr_left heq, sum_map_delta (catKeys ts) k0 t.valor (catKeys_nodup ts)]
          simp [hk']
        rw [hdelta, ih]
        simp [List.filter_cons, h]
      · have hkeys : catKeys (t :: ts) = k0 :: catKeys ts := by
          simp only [catKeys, List.filterMap_cons, h]
          exact List.dedup_cons_of_not_mem hk
        have hnotin : ∀ u ∈ ts, u.categoria_nome ≠ some k0 := by
          intro u hu hcontra
          exact hk (List.mem_filterMap.mpr ⟨u, hu, hcontra⟩)
        rw [hkeys]
        simp only [List.map_cons, List.sum_cons]
        rw [hmap]
        have hdelta :
            ((catKeys ts).map (fun n => if t.categoria_nome = some n then t.valor else 0)).sum
              = 0 := by
          have heq : ∀ n ∈ catKeys ts,
              (if t.categoria_nome = some n then t.valor else 0) = 0 := by
            intro n hn
            have hne : ¬ k0 = n := by
              intro hc
              rcases (mem_catKeys ts n).mp hn with ⟨u, hu, hun⟩
              exact hnotin u hu (hc ▸ hun)
            rw [h]
            exact if_neg (by simpa using hne)
          rw [List.map_congr_left heq]
          simp
        rw [hdelta, catTotal_cons, catTotal_eq_zero ts k0 hnotin, ih]
        simp [List.filter_cons, h]

/-- C7 — corrected.  The per-category rollup `cat_sum`: every listed group
carries the RAW (unsigned) total of the transactions with that
`categoria_nome`, every categorised transaction's name appears as a group,
and the group totals add up to exactly the categorised transactions' total —
transactions without a category are dropped, they appear under no group. -/
theorem c7_cat_sum_amended (df : List Transaction) :
    (∀ p ∈ cat_sum df, p.2 = catTotal df p.1 ∧ ∃ t ∈ df, t.categoria_nome = some p.1) ∧
    (∀ t ∈ df, ∀ name, t.categoria_nome = some name →
      ∃ p ∈ cat_sum df, p.1 = name) ∧
    ((cat_sum df).map Prod.snd).sum =
      ((df.filter (fun t => t.categoria_nome.isSome)).map (fun t => t.valor)).sum := by
  refine ⟨?_, ?_, ?_⟩
  · intro p hp
    rcases List.mem_map.mp hp with ⟨n, hn, rfl⟩
    exact ⟨rfl, (mem_catKeys df n).mp hn⟩
  · intro t ht name hname
    exact ⟨(name, catTotal df name),
      List.mem_map_of_mem _ ((mem_catKeys df name).mpr ⟨t, ht, hname⟩), rfl⟩
  · simpa [cat_sum, List.map_map, Function.comp] using cat_sum_partition df

/-- C7 witness: the amended theorem's partition equation at the Food/no-cat
fixture, together with the concrete value of the rollup there. -/
theorem c7_witness :
    cat_sum [exFoodTx, exNoCatTx] = [("Food", 10000)] ∧
    ((cat_sum [exFoodTx, exNoCatTx]).map Prod.snd).sum =
      (([exFoodTx, exNoCatTx].filter (fun t => t.categoria_nome.isSome)).map
        (fun t => t.valor)).sum :=
  ⟨by decide, (c7_cat_sum_amended [exFoodTx, exNoCatTx]).2.2⟩

/-- C7 counterexample: one Expense of `100,00` in category `"Food"` and one
Expense of `50,00` without a category.  The rollup reports `+100,00` for
`"Food"` — the claimed signed amount is `-100,00` — and contains no
`"uncategorized"` sentinel group at all: the second transaction is silently
dropped. -/
theorem c7_counterexample :
    cat_sum [exFoodTx, exNoCatTx] = [("Food", 10000)] ∧
    signed_amount_spec exFoodTx = -10000 ∧
    exNoCatTx.categoria_nome = none ∧
    (∀ p ∈ cat_sum [exFoodTx, exNoCatTx], p.1 ≠ "uncategorized") := by
  refine ⟨by decide, by decide, rfl, by decide⟩

/-- C3 — confirmed.  Each cascade delete (card, account, category) as one
unit: it keeps every transaction (the count is unchanged, zero rows
removed), nulls the reference pair on exactly the rows that pointed at the
deleted id (rows that did not point at it are kept verbatim; afterwards no
row points at it), removes the entity row itself, and touches none of the
other tables. -/
theorem c3_cascade_delete (s : AppState) (eid : String) :
    ((excluirCartao s eid).tx.length = s.tx.length ∧
     (∀ t ∈ s.tx, t.cartao_id = some eid →
       ({ t with cartao_id := none, cartao_nome := none } : Transaction)
         ∈ (excluirCartao s eid).tx) ∧
     (∀ t ∈ s.tx, t.cartao_id ≠ some eid → t ∈ (excluirCartao s eid).tx) ∧
     (∀ t ∈ (excluirCartao s eid).tx, t.cartao_id ≠ some eid) ∧
     (∀ c ∈ (excluirCartao s eid).cards, c.id ≠ eid) ∧
     (∀ c ∈ s.cards, c.id ≠ eid → c ∈ (excluirCartao s eid).cards) ∧
     (excluirCartao s eid).accounts = s.accounts ∧
     (excluirCartao s eid).cats = s.cats) ∧
    ((excluirConta s eid).tx.length = s.tx.length ∧
     (∀ t ∈ s.tx, t.conta_id = some eid →
       ({ t with conta_id := none, conta_nome := none } : Transaction)
         ∈ (excluirConta s eid).tx) ∧
     (∀ t ∈ s.tx, t.conta_id ≠ some eid → t ∈ (excluirConta s eid).tx) ∧
     (∀ t ∈ (excluirConta s eid).tx, t.conta_id ≠ some eid) ∧
     (∀ a ∈ (excluirConta s eid).accounts, a.id ≠ eid) ∧
     (∀ a ∈ s.accounts, a.id ≠ eid → a ∈ (excluirConta s eid).accounts) ∧
     (excluirConta s eid).cards = s.cards ∧
     (excluirConta s eid).cats = s.cats) ∧
    ((excluirCategoria s eid).tx.length = s.tx.length ∧
     (∀ t ∈ s.tx, t.categoria_id = some eid →
       ({ t with categoria_id := none, categoria_nome := none } : Transaction)
         ∈ (excluirCategoria s eid).tx) ∧
     (∀ t ∈ s.tx, t.categoria_id ≠ some eid → t ∈ (excluirCategoria s eid).tx) ∧
     (∀ t ∈ (excluirCategoria s eid).tx, t.categoria_id ≠ some eid) ∧
     (∀ k ∈ (excluirCategoria s eid).cats, k.id ≠ eid) ∧
     (∀ k ∈ s.cats, k.id ≠ eid → k ∈ (excluirCategoria s eid).cats) ∧
     (excluirCategoria s eid).cards = s.cards ∧
     (excluirCategoria s eid).accounts = s.accounts) := by
  refine ⟨⟨?_, ?_, ?_, ?_, ?_, ?_, rfl, rfl⟩,
          ⟨?_, ?_, ?_, ?_, ?_, ?_, rfl, rfl⟩,
          ⟨?_, ?_, ?_, ?_, ?_, ?_, rfl, rfl⟩⟩
  · exact List.length_map s.tx (clearCartaoRef eid)
  · intro t ht hmatch
    have hcl : clearCartaoRef eid t =
        { t with cartao_id := none, cartao_nome := none } := by
      simp [clearCartaoRef, hmatch]
    exact hcl ▸ List.mem_map_of_mem (clearCartaoRef eid) ht
  · intro t ht hne
    have hcl : clearCartaoRef eid t = t := by
      simp [clearCartaoRef, beq_iff_eq, hne]
    exact hcl ▸ List.mem_map_of_mem (clearCartaoRef eid) ht
  · intro t' ht'
    rcases List.mem_map.mp ht' with ⟨t, _, rfl⟩
    by_cases hmatch : t.cartao_id = some eid <;>
      simp [clearCartaoRef, beq_iff_eq, hmatch]
  · intro c hc
    exact (List.mem_filter.mp hc).2 |> (by simpa [bne_iff_ne] using ·)
  · intro c hc hne
    exact List.mem_filter.mpr ⟨hc, by simpa [bne_iff_ne] using hne⟩
  · exact List.length_map s.tx (clearContaRef eid)
  · intro t ht hmatch
    have hcl : clearContaRef eid t =
        { t with conta_id := none, conta_nome := none } := by
      simp [clearContaRef, hmatch]
    exact hcl ▸ List.mem_map_of_mem (clearContaRef eid) ht
  · intro t ht hne
    have hcl : clearContaRef eid t = t := by
      simp [clearContaRef, beq_iff_eq, hne]
    exact hcl ▸ List.mem_map_of_mem (clearContaRef eid) ht
  · intro t' ht'
    rcases List.mem_map.mp ht' with ⟨t, _, rfl⟩
    by_cases hmatch : t.conta_id = some eid <;>
      simp [clearContaRef, beq_iff_eq, hmatch]
  · intro a ha
    exact (List.mem_filter.mp ha).2 |> (by simpa [bne_iff_ne] using ·)
  · intro a ha hne
    exact List.mem_filter.mpr ⟨ha, by simpa [bne_iff_ne] using hne⟩
  · exact List.length_map s.tx (clearCategoriaRef eid)
  · intro t ht hmatch
    have hcl : clearCategoriaRef eid t =
        { t with categoria_id := none, categoria_nome := none } := by
      simp [clearCategoriaRef, hmatch]
    exact hcl ▸ List.mem_map_of_mem (clearCategoriaRef eid) ht
  · intro t ht hne
    have hcl : clearCategoriaRef eid t = t := by
      simp [clearCategoriaRef, beq_iff_eq, hne]
    exact hcl ▸ List.mem_map_of_mem (clearCategoriaRef eid) ht
  · intro t' ht'
    rcases List.mem_map.mp ht' with ⟨t, _, rfl⟩
    by_cases hmatch : t.categoria_id = some eid <;>
      simp [clearCategoriaRef, beq_iff_eq, hmatch]
  · intro k hk
    exact (List.mem_filter.mp hk).2 |> (by simpa [bne_iff_ne] using ·)
  · intro k hk hne
    exact List.mem_filter.mpr ⟨hk, by simpa [bne_iff_ne] using hne⟩

/-- C3 witness: the card cascade delete evaluated on the fixture state (one
linked and one unlinked transaction), together with the length conjunct
delivered by the theorem. -/
theorem c3_witness :
    excluirCartao exCascadeState "c1" =
      ⟨[⟨"t6", "2026-01-06", "Despesa", some "k1", some "Food", "jantar", 7000,
          some "a1", some "Conta A", none, none⟩, exNoCatTx],
        [], [exAccount], [⟨"k1", "Food", "Despesa", none, none⟩]⟩ ∧
    (excluirCartao exCascadeState "c1").tx.length = exCascadeState.tx.length :=
  ⟨by decide, (c3_cascade_delete exCascadeState "c1").1.1⟩

/-- C10 — confirmed.  Deleting a transaction by id removes exactly the rows
with that id: no surviving row has the id, every other row survives, the
result is a sublist of the original (order kept, nothing added), and the
accounts, cards and categories tables are untouched. -/
theorem c10_excluir_lancamento_frame (s : AppState) (tx_id : String) :
    (∀ t ∈ (excluirLancamento s tx_id).tx, t.id ≠ tx_id) ∧
    (∀ t ∈ s.tx, t.id ≠ tx_id → t ∈ (excluirLancamento s tx_id).tx) ∧
    (excluirLancamento s tx_id).tx.Sublist s.tx ∧
    (excluirLancamento s tx_id).accounts = s.accounts ∧
    (excluirLancamento s tx_id).cards = s.cards ∧
    (excluirLancamento s tx_id).cats = s.cats := by
  refine ⟨?_, ?_, List.filter_sublist s.tx, rfl, rfl, rfl⟩
  · intro t ht
    exact (List.mem_filter.mp ht).2 |> (by simpa [bne_iff_ne] using ·)
  · intro t ht hne
    exact List.mem_filter.mpr ⟨ht, by simpa [bne_iff_ne] using hne⟩

/-- C10 witness: deleting `"t2"` from the limit fixture empties the
transaction table and leaves the card table alone. -/
theorem c10_witness :
    excluirLancamento exLimitState "t2" = ⟨[], [exCard], [], []⟩ ∧
    (excluirLancamento exLimitState "t2").cards = exLimitState.cards :=
  ⟨by decide, (c10_excluir_lancamento_frame exLimitState "t2").2.2.2.2.1⟩

/-- C2 counterexample: card `c1` has limit `100,00` and `80,00` already
used; submitting a further `50,00` Expense on it (`80 + 50 > 100`) is NOT
rejected — the handler appends the transaction, the derived utilisation
rises to `130,00`, and no error state exists anywhere in the handler. -/
theorem c2_counterexample :
    usado exLimitState.tx "c1" + exLimitInput.valor > exCard.limite ∧
    (registrarLancamento exLimitState exLimitInput "cid9" "t9" true true).tx.length
      = exLimitState.tx.length + 1 ∧
    usado (registrarLancamento exLimitState exLimitInput "cid9" "t9" true true).tx "c1"
      = 13000 ∧
    (registrarLancamento exLimitState exLimitInput "cid9" "t9" true true).cards
      = exLimitState.cards := by
  refine ⟨by decide, by decide, by decide, by decide⟩

/-- Card usage is additive over an appended transaction list. -/
theorem usado_append (l1 l2 : List Transaction) (cid : String) :
    usado (l1 ++ l2) cid = usado l1 cid + usado l2 cid := by
  simp [usado, List.filter_append]

/-- C2 — corrected.  The submit handler performs no credit-limit check: for
any state and any Expense form referencing an existing card, even when
`usado + valor > limite`, the transaction is appended unchanged (when the
insert call succeeds), the derived utilisation grows by the amount, no
error of any kind is produced, and the cards/accounts/categories tables are
untouched. -/
theorem c2_no_limit_enforcement (s : AppState) (inp : FormInput)
    (cid tx_id : String) (catOk : Bool)
    (hncat : truthyStr inp.nova_cat = false)
    (c : Card)
    (hc : lookupIdByNomeCard s.cards inp.card_choice = some c.id)
    (hid : c.id ≠ "")
    (hlim : usado s.tx c.id + inp.valor > c.limite) :
    ∃ novo : Transaction,
      (registrarLancamento s inp cid tx_id catOk true).tx = s.tx ++ [novo] ∧
      novo.cartao_id = some c.id ∧
      novo.valor = inp.valor ∧
      novo.tipo = inp.tipo ∧
      usado (registrarLancamento s inp cid tx_id catOk true).tx c.id
        = usado s.tx c.id + inp.valor ∧
      (registrarLancamento s inp cid tx_id catOk true).cards = s.cards ∧
      (registrarLancamento s inp cid tx_id catOk true).accounts = s.accounts ∧
      (registrarLancamento s inp cid tx_id catOk true).cats = s.cats := by
  have hres : registrarLancamento s inp cid tx_id catOk true =
      { s with tx := s.tx ++ [buildNovo inp tx_id
          (lookupIdByNomeCat s.cats inp.cat_choice)
          (if inp.cat_choice != "-- Nenhuma --" then some inp.cat_choice else none)
          (lookupIdByNomeAcc s.accounts inp.acc_choice)
          (if inp.acc_choice != "-- Nenhuma --" then some inp.acc_choice else none)
          (lookupIdByNomeCard s.cards inp.card_choice)
          (if inp.card_choice != "-- Nenhum --" then some inp.card_choice else none)] } := by
    simp [registrarLancamento, hncat]
  set novo := buildNovo inp tx_id
      (lookupIdByNomeCat s.cats inp.cat_choice)
      (if inp.cat_choice != "-- Nenhuma --" then some inp.cat_choice else none)
      (lookupIdByNomeAcc s.accounts inp.acc_choice)
      (if inp.acc_choice != "-- Nenhuma --" then some inp.acc_choice else none)
      (lookupIdByNomeCard s.cards inp.card_choice)
      (if inp.card_choice != "-- Nenhum --" then some inp.card_choice else none)
    with hnovo
  have hcard : novo.cartao_id = some c.id := by
    rw [hnovo]
    simp [buildNovo, hc, truthyStr, bne_iff_ne, hid]
  refine ⟨novo, by rw [hres], hcard, rfl, rfl, ?_, by rw [hres], by rw [hres], by rw [hres]⟩
  rw [hres]
  show usado (s.tx ++ [novo]) c.id = usado s.tx c.id + inp.valor
  rw [usado_append]
  have : usado [novo] c.id = inp.valor := by
    simp [usado, hcard]
    rw [hnovo]
    rfl
  rw [this]

/-- C2 witness: the amended theorem applied to the over-limit fixture, with
each hypothesis checked by evaluation. -/
theorem c2_witness :
    truthyStr exLimitInput.nova_cat = false ∧
    lookupIdByNomeCard exLimitState.cards exLimitInput.card_choice = some exCard.id ∧
    exCard.id ≠ "" ∧
    usado exLimitState.tx exCard.id + exLimitInput.valor > exCard.limite ∧
    (∃ novo : Transaction,
      (registrarLancamento exLimitState exLimitInput "cid9" "t9" true true).tx
        = exLimitState.tx ++ [novo] ∧
      novo.cartao_id = some exCard.id ∧
      novo.valor = exLimitInput.valor ∧
      novo.tipo = exLimitInput.tipo ∧
      usado (registrarLancamento exLimitState exLimitInput "cid9" "t9" true true).tx
          exCard.id
        = usado exLimitState.tx exCard.id + exLimitInput.valor ∧
      (registrarLancamento exLimitState exLimitInput "cid9" "t9" true true).cards
        = exLimitState.cards ∧
      (registrarLancamento exLimitState exLimitInput "cid9" "t9" true true).accounts
        = exLimitState.accounts ∧
      (registrarLancamento exLimitState exLimitInput "cid9" "t9" true true).cats
        = exLimitState.cats) :=
  ⟨by decide, by decide, by decide, by decide,
    c2_no_limit_enforcement exLimitState exLimitInput "cid9" "t9" true (by decide)
      exCard (by decide) (by decide) (by decide)⟩

/-- C5 — code bug, evaluated at the failing input.  Registering a
transaction with a brand-new category, where the category insert succeeds
and the transaction insert then fails, leaves the new category behind: the
categories table changed while the transaction table did not — the failed
mutation was partially applied. -/
theorem c5_category_leak_on_failed_insert :
    (registrarLancamento exEmptyState exNewCatInput "k9" "t9" true false).cats
      = [⟨"k9", "Mercado", "Despesa", none, none⟩] ∧
    (registrarLancamento exEmptyState exNewCatInput "k9" "t9" true false).tx = [] ∧
    exEmptyState.cats = [] ∧
    registrarLancamento exEmptyState exNewCatInput "k9" "t9" true false ≠ exEmptyState := by
  refine ⟨by decide, by decide, rfl, by decide⟩

/-- A character code `48 + m` with `m < 10` is a decimal digit. -/
theorem char_ofNat_digit (m : Nat) (hm : m < 10) :
    (Char.ofNat (48 + m)).isDigit = true := by
  interval_cases m <;> decide

/-- Every character the digit extractor produces is a decimal digit. -/
theorem natDigitsRevAux_isDigit (fuel : Nat) :
    ∀ n, ∀ c ∈ natDigitsRevAux fuel n, c.isDigit = true := by
  induction fuel with
  | zero =>
    intro n c hc
    simp [natDigitsRevAux] at hc
  | succ fuel ih =>
    intro n c hc
    simp only [natDigitsRevAux] at hc
    by_cases h : n < 10
    · rw [if_pos h] at hc
      rcases List.mem_singleton.mp hc with rfl
      exact char_ofNat_digit n h
    · rw [if_neg h] at hc
      rcases List.mem_cons.mp hc with rfl | hc2
      · exact char_ofNat_digit (n % 10) (Nat.mod_lt _ (by omega))
      · exact ih (n / 10) c hc2

/-- Every character of `natDigitsRev n` is a decimal digit. -/
theorem natDigitsRev_isDigit (n : Nat) : ∀ c ∈ natDigitsRev n, c.isDigit = true :=
  natDigitsRevAux_isDigit (n + 1) n

/-- A decimal digit is none of the separator / marker characters. -/
theorem isDigit_ne_sep {c : Char} (h : c.isDigit = true) :
    c ≠ ',' ∧ c ≠ '.' ∧ c ≠ 'X' := by
  refine ⟨?_, ?_, ?_⟩ <;> rintro rfl <;> exact absurd h (by decide)

/-- A character of the grouped digit list is the separator or one of the
input characters. -/
theorem insertSepsRev_mem :
    ∀ (ds : List Char) (k : Nat), ∀ c ∈ insertSepsRev ds k, c = ',' ∨ c ∈ ds := by
  intro ds
  induction ds with
  | nil =>
    intro k c hc
    simp [insertSepsRev] at hc
  | cons d ds ih =>
    intro k c hc
    simp only [insertSepsRev] at hc
    by_cases hds : ds.isEmpty
    · rw [if_pos hds] at hc
      rcases List.mem_singleton.mp hc with rfl
      exact Or.inr (by simp)
    · rw [if_neg hds] at hc
      by_cases hk : k = 2
      · rw [if_pos hk] at hc
        rcases List.mem_cons.mp hc with rfl | hc2
        · exact Or.inr (by simp)
        rcases List.mem_cons.mp hc2 with rfl | hc3
        · exact Or.inl rfl
        rcases ih 0 c hc3 with h | h
        · exact Or.inl h
        · exact Or.inr (List.mem_cons_of_mem d h)
      · rw [if_neg hk] at hc
        rcases List.mem_cons.mp hc with rfl | hc2
        · exact Or.inr (by simp)
        rcases ih (k + 1) c hc2 with h | h
        · exact Or.inl h
        · exact Or.inr (List.mem_cons_of_mem d h)

/-- Separator positions in the grouped digit list, counted from the least
significant end: with `k` digits already in the current group, position `i`
holds the separator exactly when `(i + k) % 4 = 3` (and `i` is in range) —
i.e. separators sit after every complete group of three digits. -/
theorem insertSepsRev_sep_iff :
    ∀ (ds : List Char) (k : Nat), (∀ c ∈ ds, c ≠ ',') → k ≤ 2 →
    ∀ i : Nat, ((insertSepsRev ds k)[i]? = some ',') ↔
      ((i + k) % 4 = 3 ∧ i < (insertSepsRev ds k).length) := by
  intro ds
  induction ds with
  | nil =>
    intro k _ _ i
    simp [insertSepsRev]
  | cons d ds ih =>
    intro k hcomma hk i
    have hd : d ≠ ',' := hcomma d (List.mem_cons_self d ds)
    have hds' : ∀ c ∈ ds, c ≠ ',' := fun c hc => hcomma c (List.mem_cons_of_mem d hc)
    by_cases hds : ds.isEmpty
    · have heq : insertSepsRev (d :: ds) k = [d] := by
        simp [insertSepsRev, hds]
      rw [heq]
      match i with
      | 0 =>
        simp only [List.getElem?_cons_zero, List.length_singleton]
        constructor
        · intro hsome
          exact absurd (Option.some.inj hsome) hd
        · intro habs
          omega
      | i + 1 =>
        simp
    · by_cases hk2 : k = 2
      · subst hk2
        have heq : insertSepsRev (d :: ds) 2 = d :: ',' :: insertSepsRev ds 0 := by
          simp [insertSepsRev, hds]
        rw [heq]
        match i with
        | 0 =>
          simp only [List.getElem?_cons_zero, List.length_cons]
          constructor
          · intro hsome
            exact absurd (Option.some.inj hsome) hd
          · intro habs
            omega
        | 1 =>
          constructor
          · intro _
            refine ⟨by omega, ?_⟩
            simp only [List.length_cons]
            omega
          · intro _
            simp
        | i + 2 =>
          simp only [List.getElem?_cons_succ, List.length_cons]
          rw [ih 0 hds' (by omega) i]
          omega
      · have heq : insertSepsRev (d :: ds) k = d :: insertSepsRev ds (k + 1) := by
          simp [insertSepsRev, hds, hk2]
        rw [heq]
        match i with
        | 0 =>
          simp only [List.getElem?_cons_zero, List.length_cons]
          constructor
          · intro hsome
            exact absurd (Option.some.inj hsome) hd
          · intro habs
            omega
        | i + 1 =>
          simp only [List.getElem?_cons_succ, List.length_cons]
          rw [ih (k + 1) hds' (by omega) i]
          omega

/-- The three single-character replaces of `fmt`, on a string without `'X'`,
amount to swapping `','` and `'.'`. -/
theorem replace_triple (l : List Char) (hX : ∀ c ∈ l, c ≠ 'X') :
    replaceChar 'X' '.' (replaceChar '.' ',' (replaceChar ',' 'X' l)) =
      l.map (fun c => if c = ',' then '.' else if c = '.' then ',' else c) := by
  simp only [replaceChar, List.map_map]
  apply List.map_congr_left
  intro c hc
  simp only [Function.comp]
  by_cases h1 : c = ','
  · subst h1; rfl
  · by_cases h2 : c = '.'
    · subst h2; rfl
    · simp only [if_neg h1, if_neg h2, if_neg (hX c hc)]

/-- Two fractional digits: `pad2` always has length 2 and only digit
characters (for the remainder of a division by 100). -/
theorem pad2_digits (m : Nat) (hm : m < 100) :
    (pad2 m).length = 2 ∧ ∀ c ∈ pad2 m, c.isDigit = true := by
  refine ⟨rfl, ?_⟩
  intro c hc
  rcases List.mem_cons.mp hc with rfl | hc2
  · exact char_ofNat_digit (m / 10) (by omega)
  rcases List.mem_singleton.mp hc2 with rfl
  exact char_ofNat_digit (m % 10) (by omega)

/-- C8 — confirmed.  `fmt` renders `1234.50` as `"R$ 1.234,50"`, and for
every exact cent amount the output is the `"R$ "` marker, an optional minus
sign, the integer part — digits with `'.'` exactly at every fourth position
from the right, i.e. a thousands separator after each complete group of
three digits — then a single `','` (the only comma of the string) followed
by exactly two decimal digits. -/
theorem c8_fmt_currency_shape :
    fmt 123450 = "R$ 1.234,50" ∧
    ∀ n : Int, ∃ g : List Char,
      (fmt n).data = "R$ ".data ++ (if n < 0 then ['-'] else []) ++ g
        ++ [','] ++ pad2 (n.natAbs % 100) ∧
      (pad2 (n.natAbs % 100)).length = 2 ∧
      (∀ c ∈ pad2 (n.natAbs % 100), c.isDigit = true) ∧
      (∀ c ∈ g, c = '.' ∨ c.isDigit = true) ∧
      ',' ∉ g ∧
      (∀ i : Nat, (g.reverse[i]? = some '.') ↔ (i % 4 = 3 ∧ i < g.length)) := by
  constructor
  · decide
  intro n
  have hm : n.natAbs % 100 < 100 := Nat.mod_lt _ (by omega)
  have hF := pad2_digits (n.natAbs % 100) hm
  have hDdig : ∀ c ∈ natDigitsRev (n.natAbs / 100), c.isDigit = true :=
    natDigitsRev_isDigit _
  have hImem : ∀ c ∈ insertSepsRev (natDigitsRev (n.natAbs / 100)) 0,
      c = ',' ∨ c.isDigit = true := by
    intro c hc
    rcases insertSepsRev_mem _ 0 c hc with h | h
    · exact Or.inl h
    · exact Or.inr (hDdig c h)
  have hGmem : ∀ c ∈ (insertSepsRev (natDigitsRev (n.natAbs / 100)) 0).reverse,
      c = ',' ∨ c.isDigit = true := by
    intro c hc
    exact hImem c (List.mem_reverse.mp hc)
  refine ⟨((insertSepsRev (natDigitsRev (n.natAbs / 100)) 0).reverse).map
      (fun c => if c = ',' then '.' else c), ?_, hF.1, hF.2, ?_, ?_, ?_⟩
  · -- the structural equation
    have hX : ∀ c ∈ "R$ ".data ++ pyFormatChars n, c ≠ 'X' := by
      intro c hc
      rcases List.mem_append.mp hc with h | h
      · have h2 : c = 'R' ∨ c = '$' ∨ c = ' ' := by simpa using h
        rcases h2 with rfl | rfl | rfl <;> decide
      simp only [pyFormatChars] at h
      rcases List.mem_append.mp h with h | h
      · rcases List.mem_append.mp h with h | h
        · rcases List.mem_append.mp h with h | h
          · rcases List.mem_ite_nil_right.mp h with ⟨_, h2⟩
            rcases List.mem_singleton.mp h2 with rfl
            decide
          · rcases hGmem c h with rfl | hd
            · decide
            · exact (isDigit_ne_sep hd).2.2
        · rcases List.mem_singleton.mp h with rfl
          decide
      · exact (isDigit_ne_sep (hF.2 c h)).2.2
    have h1 : (fmt n).data =
        ("R$ ".data ++ pyFormatChars n).map
          (fun c => if c = ',' then '.' else if c = '.' then ',' else c) :=
      replace_triple _ hX
    rw [h1]
    simp only [pyFormatChars, List.map_append]
    have hRS : (List.map (fun c => if c = ',' then '.' else if c = '.' then ',' else c)
        "R$ ".data) = "R$ ".data := rfl
    have hsign : (List.map (fun c => if c = ',' then '.' else if c = '.' then ',' else c)
        (if n < 0 then ['-'] else [])) = (if n < 0 then ['-'] else []) := by
      by_cases hn : n < 0 <;> simp [hn]
    have hdot : (List.map (fun c => if c = ',' then '.' else if c = '.' then ',' else c)
        ['.']) = [','] := rfl
    have hFmap : (List.map (fun c => if c = ',' then '.' else if c = '.' then ',' else c)
        (pad2 (n.natAbs % 100))) = pad2 (n.natAbs % 100) := by
      have hid : (List.map (fun c => if c = ',' then '.' else if c = '.' then ',' else c)
          (pad2 (n.natAbs % 100))) = List.map id (pad2 (n.natAbs % 100)) := by
        apply List.map_congr_left
        intro c hc
        have hd := isDigit_ne_sep (hF.2 c hc)
        rw [if_neg hd.1, if_neg hd.2.1]
        rfl
      simpa using hid
    have hGmap : (List.map (fun c => if c = ',' then '.' else if c = '.' then ',' else c)
        ((insertSepsRev (natDigitsRev (n.natAbs / 100)) 0).reverse)) =
        ((insertSepsRev (natDigitsRev (n.natAbs / 100)) 0).reverse).map
          (fun c => if c = ',' then '.' else c) := by
      apply List.map_congr_left
      intro c hc
      rcases hGmem c hc with rfl | hd
      · rfl
      · have hsep := isDigit_ne_sep hd
        rw [if_neg hsep.1, if_neg hsep.2.1, if_neg hsep.1]
    rw [hRS, hsign, hdot, hFmap, hGmap]
    simp [List.append_assoc]
  · -- members of the integer part
    intro c hc
    rcases List.mem_map.mp hc with ⟨x, hx, rfl⟩
    rcases hGmem x hx with rfl | hd
    · exact Or.inl rfl
    · have hsep := isDigit_ne_sep hd
      rw [if_neg hsep.1]
      exact Or.inr hd
  · -- no comma in the integer part
    intro hmem
    rcases List.mem_map.mp hmem with ⟨x, hx, hswap⟩
    rcases hGmem x hx with rfl | hd
    · simp at hswap
    · have hsep := isDigit_ne_sep hd
      rw [if_neg hsep.1] at hswap
      exact hsep.1 hswap
  · -- separator positions
    intro i
    have hrev : (((insertSepsRev (natDigitsRev (n.natAbs / 100)) 0).reverse).map
        (fun c => if c = ',' then '.' else c)).reverse =
        (insertSepsRev (natDigitsRev (n.natAbs / 100)) 0).map
          (fun c => if c = ',' then '.' else c) := by
      rw [← List.map_reverse, List.reverse_reverse]
    have hlen : (((insertSepsRev (natDigitsRev (n.natAbs / 100)) 0).reverse).map
        (fun c => if c = ',' then '.' else c)).length =
        (insertSepsRev (natDigitsRev (n.natAbs / 100)) 0).length := by
      simp
    rw [hrev, hlen, List.getElem?_map]
    have hDne : ∀ c ∈ natDigitsRev (n.natAbs / 100), c ≠ ',' :=
      fun c hc => (isDigit_ne_sep (hDdig c hc)).1
    constructor
    · intro h
      cases hli : (insertSepsRev (natDigitsRev (n.natAbs / 100)) 0)[i]? with
      | none => rw [hli] at h; simp at h
      | some x =>
        rw [hli] at h
        have h2 : (if x = ',' then '.' else x) = '.' := by simpa using h
        have hx : x ∈ insertSepsRev (natDigitsRev (n.natAbs / 100)) 0 :=
          List.getElem?_mem hli
        rcases hImem x hx with rfl | hd
        · have := (insertSepsRev_sep_iff _ 0 hDne (by omega) i).mp hli
          simpa using this
        · have hsep := isDigit_ne_sep hd
          rw [if_neg hsep.1] at h2
          exact absurd h2 hsep.2.1
    · intro h
      have : (insertSepsRev (natDigitsRev (n.natAbs / 100)) 0)[i]? = some ',' := by
        apply (insertSepsRev_sep_iff _ 0 hDne (by omega) i).mpr
        simpa using h
      rw [this]
      rfl

/-- C8 witness: the shape theorem's example conjunct, plus two further
concrete evaluations. -/
theorem c8_witness :
    fmt 123450 = "R$ 1.234,50" ∧
    fmt (-98765432) = "R$ -987.654,32" ∧
    fmt 0 = "R$ 0,00" :=
  ⟨(c8_fmt_currency_shape).1, by decide, by decide⟩

/-- C9 — confirmed.  `load_data` and `load_cards` are total functions of the
file-system state (they are defined on every `FileState`, so no exception
can escape — the source's bare `except:` and `os.path.exists` guard make
every branch return); when the file is absent or unreadable each returns the
empty DataFrame with exactly its schema columns, and when the file is
readable each returns the parsed DataFrame. -/
theorem c9_loaders_total :
    (∀ fs : FileState, (fs = FileState.absent ∨ fs = FileState.corrupt) →
      load_data fs = ⟨["data", "tipo", "categoria", "descricao", "valor"], []⟩ ∧
      load_cards fs = ⟨["nome", "limite", "vencimento"], []⟩) ∧
    (∀ df : DataFrame, load_data (FileState.readable df) = df ∧
      load_cards (FileState.readable df) = df) :=
  ⟨fun fs h => by rcases h with rfl | rfl <;> exact ⟨rfl, rfl⟩,
    fun df => ⟨rfl, rfl⟩⟩

/-- C9 witness: the loader theorem applied to the absent-file state. -/
theorem c9_witness :
    (FileState.absent = FileState.absent ∨ FileState.absent = FileState.corrupt) ∧
    (load_data FileState.absent
        = ⟨["data", "tipo", "categoria", "descricao", "valor"], []⟩ ∧
      load_cards FileState.absent = ⟨["nome", "limite", "vencimento"], []⟩) :=
  ⟨Or.inl rfl, (c9_loaders_total).1 FileState.absent (Or.inl rfl)⟩
